import Mathlib

set_option maxRecDepth 4000

/-!
Shallow embedding of `src/index.ts` (the `localsocket` in-process pub/sub hub).

The JS runtime details are modelled as follows:
* JS strings are Lean `String` (a `List Char` under the hood); `String.prototype.includes`,
  `startsWith` and `trim` are re-implemented below on `.data`.
* JS plain objects used as records (`this.keys`, `this.events`, the `sink` payload
  accumulator) are association lists that preserve insertion order and update in place,
  matching JS property-key order semantics.
* JS object *references* matter (`this.keys[key]` aliases the same callback object that
  sits in `this.callbacks`, and `reOn` re-appends that alias), so callback objects live
  in a heap (`store : List (Nat × CbObj)`) and `callbacks` / `keys` hold references.
* Callbacks are modelled as effect descriptions (`CbEff`): an inert callback, or one that
  registers a new listener via `on` when invoked.  Invocations are recorded in the output
  of `emit` as pairs (heap reference of the listener, argument passed to the callback).
* `randomSequentialId` (explicitly out of scope per the spec: any collision-resistant id
  source suffices) is modelled as a per-hub counter rendered as the string `#n`.
* `console.warn` diagnostics are recorded as tags in `Hub.warns`.
* Thrown `Error`s are surfaced as `HubErr` values in the result of each operation.
-/

namespace LS

/-- JS `String.prototype.includes`: `hasInfix sub l` decides whether `sub` occurs
contiguously inside `l`. -/
def hasInfix (sub : List Char) : List Char → Bool
  | [] => sub.isEmpty
  | a :: as => sub.isPrefixOf (a :: as) || hasInfix sub as

/-- JS `s.includes(sub)`. -/
def jsIncludes (s sub : String) : Bool := hasInfix sub.data s.data

/-- JS `s.startsWith(p)`. -/
def jsStartsWith (s p : String) : Bool := p.data.isPrefixOf s.data

/-- JS `s.trim()`: strip leading and trailing whitespace. -/
def jsTrim (s : String) : String :=
  ⟨((s.data.dropWhile Char.isWhitespace).reverse.dropWhile Char.isWhitespace).reverse⟩

/-- JS `Array.prototype.join(" ")`. -/
def joinSp : List String → String
  | [] => ""
  | [x] => x
  | x :: xs => x ++ " " ++ joinSp xs

/-- A JS value, the payload universe for `emit`. -/
inductive Payload where
  | undef
  | num (n : Int)
  | str (s : String)
  | bool (b : Bool)
  | arr (xs : List Payload)
  | obj (fields : List (String × Payload))

/-- `event: EventType | EventType[]` — a registration argument is a scalar or an array.
(Symbols are not modelled; the claims only involve string event names.) -/
inductive JsEvents where
  | scalar (s : String)
  | list (l : List String)
deriving DecidableEq

/-- `([] as EventType[]).concat(event)`. -/
def JsEvents.toList : JsEvents → List String
  | .scalar s => [s]
  | .list l => l

/-- `Array.isArray(event)`. -/
def JsEvents.isList : JsEvents → Bool
  | .scalar _ => false
  | .list _ => true

/-- The `order` field of a train callback object (`"loose"` / `"strict"`). -/
inductive Order where
  | loose
  | strict
deriving DecidableEq

/-- The `callType` field (`"on"` / `"once"`). -/
inductive CallType where
  | on
  | once
deriving DecidableEq

/-- A callback, modelled as the effect it performs on the hub when invoked:
either inert, or it registers a fresh listener through `on` (whose own callback
is inert). -/
inductive CbEff where
  | pure
  | regOn (ev : JsEvents)
deriving DecidableEq

/-- `console.warn` diagnostics, as tags. -/
inductive Warn where
  | disconnectedInstance
  | approachingLimit
  | approachingEventLimit (e : String)
  | neverRegistered (e : String)
  | discarding (e : String)
deriving DecidableEq

/-- Thrown `Error`s. -/
inductive HubErr where
  | capacity
  | capacityEvent (e : String)
  | invalidValue
deriving DecidableEq

/-- The callback object (`CallbackObject` in the source).  Fields that the source
leaves `undefined` for non-train listeners are `Option`s (`eventCount`, `matchCount`,
`order`, `key`) or default to the observationally equivalent empty value
(`registered := ""`, `sink := []`: spreading `undefined` in JS yields `{}`).
`key` is `none` exactly when the source omits the field (`onOrderOf` does). -/
structure CbObj where
  event : String
  cbEff : CbEff
  callable : Bool
  key : Option String
  callType : CallType
  callsCount : Nat
  isTrainOfEvent : Bool
  eventCount : Option Nat
  matchCount : Option Nat
  order : Option Order
  registered : String
  sink : List (String × Payload)
  called : Bool

/-- A quota-table entry (`this.events[name] = { maxListeners, count }`). -/
structure QuotaEntry where
  maxListeners : Option Int
  count : Nat
deriving DecidableEq

/-- Association-list lookup (JS `m[k]`, `undefined` becomes `none`). -/
def tblGet? [BEq κ] (m : List (κ × β)) (k : κ) : Option β :=
  (m.find? (fun kv => kv.1 == k)).map (fun kv => kv.2)

/-- Association-list update (JS `m[k] = v`): an existing key keeps its position,
a new key is appended — JS property-order semantics. -/
def tblSet [BEq κ] (m : List (κ × β)) (k : κ) (v : β) : List (κ × β) :=
  if m.any (fun kv => kv.1 == k) then
    m.map (fun kv => if kv.1 == k then (k, v) else kv)
  else m ++ [(k, v)]

/-- Association-list deletion (JS `delete m[k]`). -/
def tblDel [BEq κ] (m : List (κ × β)) (k : κ) : List (κ × β) :=
  m.filter (fun kv => !(kv.1 == k))

/-- The hub (`LocalSocket` instance state). -/
structure Hub where
  name : Option String
  connected : Bool
  connectionId : String
  connections : List String
  maxListeners : Option Int
  callbacks : List Nat
  keys : List (String × Nat)
  events : List (String × QuotaEntry)
  store : List (Nat × CbObj)
  nextId : Nat
  warns : List Warn

/-- `new LocalSocket(name?)`. -/
def freshHub : Hub :=
  { name := none, connected := true, connectionId := "cid0", connections := []
    maxListeners := none, callbacks := [], keys := [], events := [], store := []
    nextId := 0, warns := [] }

/-- The generated listener key for the hub's `n`-th registration
(`randomSequentialId` is out of scope; modelled as a fresh-string supply). -/
def keyOf (n : Nat) : String := "#" ++ Nat.repr n

def addWarn (st : Hub) (w : Warn) : Hub := { st with warns := st.warns ++ [w] }

/-- The source's `this.events.count`: it reads property `count` of the quota-table
*object itself*, which is never assigned, so the value is `undefined`. -/
def eventsTableCount (_es : List (String × QuotaEntry)) : Option Int := none

/-- JS `x >= k` where `x` may be `undefined`: comparison with `undefined` is `false`. -/
def jsGEud : Option Int → Int → Bool
  | none, _ => false
  | some a, b => a ≥ b

/-- The `forEach` body of `validate` over the individual event names: per-name
ceiling check against `this.events.count` (see `eventsTableCount`). -/
def validateEvents : Hub → List String → Hub × Option HubErr
  | st, [] => (st, none)
  | st, e :: rest =>
    match tblGet? st.events e with
    | some entry =>
      match entry.maxListeners with
      | some k =>
        if k != 0 then
          let listnersCount : Option Int := eventsTableCount st.events
          if jsGEud listnersCount k then (st, some (HubErr.capacityEvent e))
          else
            let warnCond : Bool := match listnersCount with
              | none => false
              | some c => c > 5 && k - c < 5
            let st := if warnCond then addWarn st (Warn.approachingEventLimit e) else st
            validateEvents st rest
        else validateEvents st rest
      | none => validateEvents st rest
    | none => validateEvents st rest

/-- `this.validate(event)`: warn when disconnected (the early `return` is commented out
in the source), enforce the global ceiling, then run the per-event-name checks. -/
def validate (st : Hub) (ev : JsEvents) : Hub × Except HubErr Bool :=
  let st1 := if !st.connected then addWarn st Warn.disconnectedInstance else st
  let step1 : Hub × Option HubErr :=
    match st1.maxListeners with
    | some m =>
      if m != 0 then
        let cnt : Int := st1.callbacks.length
        if cnt ≥ m then (st1, some HubErr.capacity)
        else if cnt > 5 && m - cnt < 5 then (addWarn st1 Warn.approachingLimit, none)
        else (st1, none)
      else (st1, none)
    | none => (st1, none)
  match step1 with
  | (st2, some err) => (st2, Except.error err)
  | (st2, none) =>
    match validateEvents st2 ev.toList with
    | (st3, some err) => (st3, Except.error err)
    | (st3, none) => (st3, Except.ok true)

/-- `this.limitConnections(value)` (a.k.a. `setMaxListeners`): the model's `value`
is always a number, so only the `!value` (zero) rejection applies;
`parseInt(String(value))` is the identity on integers. -/
def limitConnections (st : Hub) (value : Int) : Hub × Option HubErr :=
  if value == 0 then (st, some HubErr.invalidValue)
  else ({ st with maxListeners := some value }, none)

/-- `this.setEventMaxListener(eventName, value)`. -/
def setEventMaxListener (st : Hub) (eventName : String) (value : Int) :
    Hub × Option HubErr :=
  if value == 0 then (st, some HubErr.invalidValue)
  else
    match tblGet? st.events eventName with
    | none => (addWarn st (Warn.neverRegistered eventName), none)
    | some entry =>
      ({ st with events := tblSet st.events eventName { entry with maxListeners := some value } },
       none)

/-- Shared tail of the four registration operations: update the quota table for the
joined (untrimmed) pattern string. -/
def bumpQuota (st : Hub) (stringified : String) : Hub :=
  match tblGet? st.events stringified with
  | some entry =>
    { st with events := tblSet st.events stringified { entry with count := entry.count + 1 } }
  | none =>
    { st with events := tblSet st.events stringified { maxListeners := none, count := 1 } }

/-- The `event` field of a callback object: trimmed space-join for an array,
`String(event)` for a scalar. -/
def eventField : JsEvents → String
  | .scalar s => s
  | .list l => joinSp (l.map jsTrim)

/-- `this.on(event, cb)`: persistent, loose train.  Returns the updated hub and
`Except`-wrapped result: `.ok (some key)` normally, `.ok none` for the dead
`if (!validState) return` path, `.error` when `validate` throws.
Note the source gives the `on` train object no `sink` field; an `undefined` sink
behaves exactly like the empty object under spread, modelled as `[]`.
(`on` itself is a reserved notation token in Lean, hence the primed name.) -/
def on' (st : Hub) (ev : JsEvents) (eff : CbEff) : Hub × Except HubErr (Option String) :=
  match validate st ev with
  | (st, Except.error err) => (st, Except.error err)
  | (st, Except.ok valid) =>
    if !valid then (st, Except.ok none)
    else
      let key := keyOf st.nextId
      let isList := ev.isList
      let cbObj : CbObj :=
        { event := eventField ev, cbEff := eff, callable := true, key := some key
          callType := CallType.on, callsCount := 0, isTrainOfEvent := isList
          eventCount := if isList then some ev.toList.length else none
          matchCount := if isList then some 0 else none
          order := if isList then some Order.loose else none
          registered := "", sink := [], called := false }
      let st := { st with store := st.store ++ [(st.nextId, cbObj)]
                          callbacks := st.callbacks ++ [st.nextId]
                          keys := tblSet st.keys key st.nextId
                          nextId := st.nextId + 1 }
      let st := bumpQuota st (joinSp ev.toList)
      (st, Except.ok (some key))

/-- `this.onOrderOf(event, cb)`: persistent, strict train.  The source's callback
object here is the one that *omits* the `key` field (modelled `key := none`). -/
def onOrderOf (st : Hub) (ev : JsEvents) (eff : CbEff) :
    Hub × Except HubErr (Option String) :=
  match validate st ev with
  | (st, Except.error err) => (st, Except.error err)
  | (st, Except.ok valid) =>
    if !valid then (st, Except.ok none)
    else
      let key := keyOf st.nextId
      let isList := ev.isList
      let cbObj : CbObj :=
        { event := eventField ev, cbEff := eff, callable := true, key := none
          callType := CallType.on, callsCount := 0, isTrainOfEvent := isList
          eventCount := if isList then some ev.toList.length else none
          matchCount := if isList then some 0 else none
          order := if isList then some Order.strict else none
          registered := "", sink := [], called := false }
      let st := { st with store := st.store ++ [(st.nextId, cbObj)]
                          callbacks := st.callbacks ++ [st.nextId]
                          keys := tblSet st.keys key st.nextId
                          nextId := st.nextId + 1 }
      let st := bumpQuota st (joinSp ev.toList)
      (st, Except.ok (some key))

/-- `this.once(event, cb)`: one-shot, loose train. -/
def once (st : Hub) (ev : JsEvents) (eff : CbEff) :
    Hub × Except HubErr (Option String) :=
  match validate st ev with
  | (st, Except.error err) => (st, Except.error err)
  | (st, Except.ok valid) =>
    if !valid then (st, Except.ok none)
    else
      let key := keyOf st.nextId
      let isList := ev.isList
      let cbObj : CbObj :=
        { event := eventField ev, cbEff := eff, callable := true, key := some key
          callType := CallType.once, callsCount := 0, isTrainOfEvent := isList
          eventCount := if isList then some ev.toList.length else none
          matchCount := if isList then some 0 else none
          order := if isList then some Order.loose else none
          registered := "", sink := [], called := false }
      let st := { st with store := st.store ++ [(st.nextId, cbObj)]
                          callbacks := st.callbacks ++ [st.nextId]
                          keys := tblSet st.keys key st.nextId
                          nextId := st.nextId + 1 }
      let st := bumpQuota st (joinSp ev.toList)
      (st, Except.ok (some key))

/-- `this.onceOrderOf(event, cb)`: one-shot, strict train. -/
def onceOrderOf (st : Hub) (ev : JsEvents) (eff : CbEff) :
    Hub × Except HubErr (Option String) :=
  match validate st ev with
  | (st, Except.error err) => (st, Except.error err)
  | (st, Except.ok valid) =>
    if !valid then (st, Except.ok none)
    else
      let key := keyOf st.nextId
      let isList := ev.isList
      let cbObj : CbObj :=
        { event := eventField ev, cbEff := eff, callable := true, key := some key
          callType := CallType.once, callsCount := 0, isTrainOfEvent := isList
          eventCount := if isList then some ev.toList.length else none
          matchCount := if isList then some 0 else none
          order := if isList then some Order.strict else none
          registered := "", sink := [], called := false }
      let st := { st with store := st.store ++ [(st.nextId, cbObj)]
                          callbacks := st.callbacks ++ [st.nextId]
                          keys := tblSet st.keys key st.nextId
                          nextId := st.nextId + 1 }
      let st := bumpQuota st (joinSp ev.toList)
      (st, Except.ok (some key))

/-- The argument a callback receives: the raw payload for a single-event listener,
or the spread `{...c.sink, [event]: args}` object for a train. -/
inductive EmitArg where
  | plain (p : Payload)
  | obj (fields : List (String × Payload))

/-- One recorded invocation: (heap reference of the invoked listener, argument). -/
abbrev Inv := Nat × EmitArg

/-- Run a callback's effect (`c.cb(...)`).  A `regOn` callback performs
`this.on(names, <inert cb>)` on the live hub; an exception it raises propagates. -/
def runCb (st : Hub) (eff : CbEff) : Hub × Option HubErr :=
  match eff with
  | CbEff.pure => (st, none)
  | CbEff.regOn ev =>
    match on' st ev CbEff.pure with
    | (st, Except.ok _) => (st, none)
    | (st, Except.error err) => (st, some err)

/-- Write a callback object back into the heap. -/
def putCb (st : Hub) (ref : Nat) (c : CbObj) : Hub :=
  { st with store := tblSet st.store ref c }

/-- `c.order === "strict"` (false for `undefined` and `"loose"`). -/
def isStrictOrd : Option Order → Bool
  | some Order.strict => true
  | _ => false

/-- The per-listener match test at the top of the loop body:
single: `c.event === event`; train:
`String(c.registered + " " + event).trim() === c.event`. -/
def eventMatchOf (c : CbObj) (e : String) : Bool :=
  if !c.isTrainOfEvent then c.event == e
  else jsTrim (c.registered ++ " " ++ e) == c.event

/-- The strict-order invalidation block: on a non-matching announce, a strict
train whose extended (trimmed) run is not a substring of the pattern loses its
`sink` and `registered` run. -/
def strictInvalidate (c : CbObj) (e : String) : CbObj :=
  if c.isTrainOfEvent && isStrictOrd c.order && !eventMatchOf c e then
    if jsIncludes c.event (jsTrim (c.registered ++ " " ++ e)) then c
    else { c with sink := [], registered := "" }
  else c

/-- The accumulation block at the bottom of the loop body (`eventMatch` is the
value computed at the top, *before* the invalidation block could reset the run):
on a non-match a train collects the payload of any substring-member event and
starts or extends its `registered` run; on a match a train resets both. -/
def accumulate (eventMatch : Bool) (c : CbObj) (e : String) (p : Payload) : CbObj :=
  if !eventMatch && c.isTrainOfEvent then
    let c2 := if jsIncludes c.event e then { c with sink := tblSet c.sink e p } else c
    let currentRegister := c2.registered
    if currentRegister == "" then
      if jsStartsWith c2.event e then { c2 with registered := jsTrim e } else c2
    else
      if jsIncludes c2.event (currentRegister ++ " " ++ e) then
        { c2 with registered := currentRegister ++ " " ++ jsTrim e }
      else c2
  else if c.isTrainOfEvent then { c with sink := [], registered := "" }
  else c

/-- One iteration of the `for (const c of this.callbacks)` loop in `emit`, acting on
the listener at heap reference `ref`.  Mirrors the source body:
`eventMatchOf` at the top, then `strictInvalidate`, then the invocation block
(`on` / `once`; `c.cb && typeof c.cb === "function"` always holds since
registration replaces non-functions with a no-op), then `accumulate`.
JS mutates `c` in place, so on an exception raised by the callback the mutations
made so far are kept (written back) and the error propagates — the accumulation
block is skipped in that case. -/
def emitIter (e : String) (p : Payload) (st : Hub) (ref : Nat) :
    Hub × List Inv × Option HubErr :=
  match tblGet? st.store ref with
  | none => (st, [], none)  -- unreachable: `callbacks` only ever holds live references
  | some c0 =>
    let eventMatch := eventMatchOf c0 e
    let c1 := strictInvalidate c0 e
    if eventMatch && c1.callable then
      match c1.callType with
      | CallType.on =>
        let arg := if c1.isTrainOfEvent then EmitArg.obj (tblSet c1.sink e p)
                   else EmitArg.plain p
        match runCb st c1.cbEff with
        | (st2, some err) => (putCb st2 ref c1, [(ref, arg)], some err)
        | (st2, none) =>
          let c2 := { c1 with callsCount := c1.callsCount + 1, sink := [] }
          (putCb st2 ref (accumulate eventMatch c2 e p), [(ref, arg)], none)
      | CallType.once =>
        if !c1.called then
          let c2 := { c1 with called := true, callsCount := c1.callsCount + 1 }
          let arg := if c2.isTrainOfEvent then EmitArg.obj (tblSet c2.sink e p)
                     else EmitArg.plain p
          match runCb st c2.cbEff with
          | (st2, some err) => (putCb st2 ref c2, [(ref, arg)], some err)
          | (st2, none) => (putCb st2 ref (accumulate eventMatch c2 e p), [(ref, arg)], none)
        else (putCb st ref (accumulate eventMatch c1 e p), [], none)
    else (putCb st ref (accumulate eventMatch c1 e p), [], none)

/-- The `for (const c of this.callbacks)` loop.  A JS array iterator re-reads the
array's length on every step, so listeners appended *during* the pass are visited
too; `fuel` is a bound on the number of steps (sufficient because listeners
registered by a `regOn` callback carry inert callbacks, so the list at most
doubles within one pass). -/
def emitLoop (e : String) (p : Payload) :
    Nat → Nat → Hub → List Inv → Hub × List Inv × Option HubErr
  | 0, _, st, acc => (st, acc, none)
  | fuel + 1, i, st, acc =>
    if i < st.callbacks.length then
      let ref := st.callbacks.getD i 0
      match emitIter e p st ref with
      | (st2, invs, some err) => (st2, acc ++ invs, some err)
      | (st2, invs, none) => emitLoop e p fuel (i + 1) st2 (acc ++ invs)
    else (st, acc, none)

/-- `this.emit(event, args)`: discard (with a warning) when disconnected, else
evaluate every listener in the live registry in order.  Returns the updated hub,
the recorded invocations, and the exception a callback raised, if any. -/
def emit (st : Hub) (e : String) (p : Payload) : Hub × List Inv × Option HubErr :=
  if !st.connected then (addWarn st (Warn.discarding e), [], none)
  else emitLoop e p (2 * st.callbacks.length + 1) 0 st []

/-- Announce a list of (event, payload) pairs in order, concatenating the recorded
invocations; a raised exception aborts the rest (it would propagate to the caller). -/
def emitSeq : Hub → List (String × Payload) → Hub × List Inv × Option HubErr
  | st, [] => (st, [], none)
  | st, (e, p) :: rest =>
    match emit st e p with
    | (st2, invs, some err) => (st2, invs, some err)
    | (st2, invs, none) =>
      match emitSeq st2 rest with
      | (st3, invs2, err2) => (st3, invs ++ invs2, err2)

/-- The `remove` filter `cb.key !== key`: an object whose `key` field is absent
compares `undefined !== key` and is kept. -/
def keepAfterRemove (store : List (Nat × CbObj)) (k : String) (ref : Nat) : Bool :=
  match tblGet? store ref with
  | some c => !(c.key == some k)
  | none => true

/-- `this.remove(key)`: no-op on a falsy or unknown key; otherwise
`delete this.events[key]` (the *quota table*, keyed by joined pattern strings —
not the key map) and filter the registry by `cb.key !== key`. -/
def remove (st : Hub) (k : String) : Hub :=
  if k == "" then st
  else
    match tblGet? st.keys k with
    | none => st
    | some _ =>
      { st with events := tblDel st.events k
                callbacks := st.callbacks.filter (keepAfterRemove st.store k) }

/-- `this.off(key)` delegates to `remove`. -/
def off (st : Hub) (k : String) : Hub := remove st k

/-- `this.reOn(key)`: re-append the callback object referenced by the (never
deleted) key map back onto the registry. -/
def reOn (st : Hub) (k : String) : Hub :=
  if k == "" then st
  else
    match tblGet? st.keys k with
    | none => st
    | some ref => { st with callbacks := st.callbacks ++ [ref] }

/-- `this.drop()`: clear key map, registry and quota table; `maxListeners` is left
alone (the reset is commented out in the source). -/
def drop (st : Hub) : Hub :=
  { st with keys := [], callbacks := [], events := [] }

/-- The synthetic `{connectionId, connections, connected}` payload. -/
def lifecyclePayload (st : Hub) : Payload :=
  Payload.obj [("connectionId", Payload.str st.connectionId),
               ("connections", Payload.arr (st.connections.map Payload.str)),
               ("connected", Payload.bool st.connected)]

/-- `this.connect()`. -/
def connect (st : Hub) : Hub × List Inv × Option HubErr :=
  let st := { st with connected := true }
  emit st "connect" (lifecyclePayload st)

/-- `this.disconnect()`. -/
def disconnect (st : Hub) : Hub × List Inv × Option HubErr :=
  if !st.connected then (st, [], none)
  else
    let st := { st with connected := false }
    emit st "disconnect" (lifecyclePayload st)

/-! ### Derived observations and scenario states used by the claims -/

/-- `callsCount` of the listener at heap reference `ref` (0 if absent). -/
def callsOf (st : Hub) (ref : Nat) : Nat :=
  match tblGet? st.store ref with
  | some c => c.callsCount
  | none => 0

/-- A well-formed event name: non-empty and whitespace-free.  The spec treats
event names as atomic identifiers; this pins that reading down for the
universally quantified claims. -/
abbrev goodS (s : String) : Prop :=
  s.data ≠ [] ∧ s.data.all (fun c => !c.isWhitespace) = true

/-- A string whose first character exists and is not whitespace (all non-empty
`registered` run strings have this shape). -/
def headOk (s : String) : Prop :=
  ∃ hd tl, s.data = hd :: tl ∧ hd.isWhitespace = false

/-- The space character, as the separator used by the joined pattern strings. -/
def spc : Char := Char.ofNat 32

/-- The callback object of a persistent train listener with pattern string `w`,
order `ord`, current run `r`, sink `s` and invocation count `n`
(`keyF` is `some key` for `on`, `none` for `onOrderOf`). -/
def mkTrainCb (w : String) (cnt : Nat) (ord : Order) (keyF : Option String)
    (r : String) (s : List (String × Payload)) (n : Nat) : CbObj :=
  { event := w, cbEff := CbEff.pure, callable := true, key := keyF
    callType := CallType.on, callsCount := n, isTrainOfEvent := true
    eventCount := some cnt, matchCount := some 0, order := some ord
    registered := r, sink := s, called := false }

/-- The hub whose single listener is the train listener above — exactly the state
produced by registering one persistent train on a fresh hub, with the listener's
transient progress generalized to `r`, `s`, `n`. -/
def mkTrainHub (w wraw : String) (cnt : Nat) (ord : Order) (keyF : Option String)
    (r : String) (s : List (String × Payload)) (n : Nat) : Hub :=
  { name := none, connected := true, connectionId := "cid0", connections := []
    maxListeners := none, callbacks := [0], keys := [("#0", 0)]
    events := [(wraw, { maxListeners := none, count := 1 })]
    store := [(0, mkTrainCb w cnt ord keyF r s n)]
    nextId := 1, warns := [] }

/-- The `cleared` outcome of one non-matching announce `e` against a train whose
pattern string is `w`, order `ord`, current run `r`: strict orders drop their
progress when the extended (trimmed) run is not a substring of the pattern. -/
def stepCleared (w : String) (ord : Order) (r e : String) : Bool :=
  isStrictOrd (some ord) && !(jsIncludes w (jsTrim (r ++ " " ++ e)))

/-- The run string after the invalidation block of one non-matching announce. -/
def stepR1 (w : String) (ord : Order) (r e : String) : String :=
  if stepCleared w ord r e then "" else r

/-- The sink after one non-matching announce `e` with payload `p`. -/
def stepSink (w : String) (ord : Order) (r : String) (s : List (String × Payload))
    (e : String) (p : Payload) : List (String × Payload) :=
  let s1 := if stepCleared w ord r e then [] else s
  if jsIncludes w e then tblSet s1 e p else s1

/-- The `registered` run after one non-matching announce `e`. -/
def stepReg (w : String) (ord : Order) (r e : String) : String :=
  let r1 := stepR1 w ord r e
  if r1 == "" then (if jsStartsWith w e then jsTrim e else r1)
  else (if jsIncludes w (r1 ++ " " ++ e) then r1 ++ " " ++ jsTrim e else r1)

/-- C1: a fresh hub with one persistent LOOSE listener on `["a","b","c"]`. -/
def c1hub : Hub := (on' freshHub (JsEvents.list ["a", "b", "c"]) CbEff.pure).1

/-- C2: a fresh hub with one persistent STRICT listener on `[A,B,C]`. -/
def strictHub (A B C : String) : Hub :=
  (onOrderOf freshHub (JsEvents.list [A, B, C]) CbEff.pure).1

/-- C3: a fresh hub with one persistent LOOSE listener on `["a","b"]`. -/
def c3hub : Hub := (on' freshHub (JsEvents.list ["a", "b"]) CbEff.pure).1

/-- C4: registering a persistent STRICT listener on `["a","b"]` on a fresh hub. -/
def c4reg : Hub × Except HubErr (Option String) :=
  onOrderOf freshHub (JsEvents.list ["a", "b"]) CbEff.pure

/-- C5: a fresh hub taken to the disconnected state via `disconnect()`. -/
def c5hub : Hub := (disconnect freshHub).1

/-- C5: registering on the disconnected hub. -/
def c5reg : Hub × Except HubErr (Option String) :=
  on' c5hub (JsEvents.scalar "a") CbEff.pure

/-- C6: one listener on `"a"`, then a per-pattern ceiling of 1 on `"a"`. -/
def c6hub : Hub :=
  (setEventMaxListener (on' freshHub (JsEvents.scalar "a") CbEff.pure).1 "a" 1).1

/-- C6: a second registration on `"a"` although the ceiling (1) is reached. -/
def c6reg : Hub × Except HubErr (Option String) :=
  on' c6hub (JsEvents.scalar "a") CbEff.pure

/-- C7: one listener on `"a"` whose callback registers a further listener on
`"a"` when invoked. -/
def c7hub : Hub :=
  (on' freshHub (JsEvents.scalar "a") (CbEff.regOn (JsEvents.scalar "a"))).1

/-- C8: a fresh hub with one listener on `"a"` (its key is `"#0"`). -/
def c8hub : Hub := (on' freshHub (JsEvents.scalar "a") CbEff.pure).1

/-- C9: fresh hub with the global ceiling set to 3. -/
def c9h0 : Hub := (limitConnections freshHub 3).1

/-- C9: first registration. -/
def c9r1 : Hub × Except HubErr (Option String) := on' c9h0 (JsEvents.scalar "a") CbEff.pure

/-- C9: second registration. -/
def c9r2 : Hub × Except HubErr (Option String) := on' c9r1.1 (JsEvents.scalar "b") CbEff.pure

/-- C9: third registration. -/
def c9r3 : Hub × Except HubErr (Option String) := on' c9r2.1 (JsEvents.scalar "c") CbEff.pure

/-- C9: fourth registration, attempted at the ceiling. -/
def c9r4 : Hub × Except HubErr (Option String) := on' c9r3.1 (JsEvents.scalar "d") CbEff.pure

/-- C10: one listener on `"a"`, then a per-pattern ceiling of 5 on `"a"`. -/
def c10hub : Hub :=
  (setEventMaxListener (on' freshHub (JsEvents.scalar "a") CbEff.pure).1 "a" 5).1

/-! ## Theorems -/

/-- The per-event-name block of `validate` is observably inert: it reads the
undefined `this.events.count`, so it neither throws nor warns on any input. -/
theorem validateEvents_eq (st : Hub) (l : List String) : validateEvents st l = (st, none) := by
  induction l with
  | nil => rfl
  | cons e rest ih =>
    simp only [validateEvents, eventsTableCount, jsGEud]
    split
    · split
      · split
        · exact ih
        · exact ih
      · exact ih
    · exact ih

/-- Claim C1 (failing-input evaluation): the persistent LOOSE listener on
`["a","b","c"]` records *no* invocation when the three names are announced in
the interleaving `b, a, c` — the source's loose matcher only completes when the
names arrive in declared order (its `matchCount`/`eventCount` machinery is never
consulted), so the spec's any-order completion never happens. -/
theorem c1_loose_out_of_order_never_fires :
    (emitSeq c1hub [("b", Payload.num 1), ("a", Payload.num 2), ("c", Payload.num 3)]).2.1 = []
    ∧ callsOf (emitSeq c1hub
        [("b", Payload.num 1), ("a", Payload.num 2), ("c", Payload.num 3)]).1 0 = 0 :=
  ⟨rfl, rfl⟩

/-- Claim C4 (failing-input evaluation): `onOrderOf` issues key `"#0"`, but its
callback object carries no `key` field, so `remove "#0"` leaves the listener in
the registry and a subsequent `a, b` announcement still invokes it once with
both payloads — contradicting the claim that a removed listener never fires. -/
theorem c4_removed_onOrderOf_listener_still_fires :
    c4reg.2 = Except.ok (some "#0")
    ∧ (remove c4reg.1 "#0").callbacks = [0]
    ∧ (emitSeq (remove c4reg.1 "#0") [("a", Payload.num 1), ("b", Payload.num 2)]).2.1
        = [(0, EmitArg.obj [("a", Payload.num 1), ("b", Payload.num 2)])] :=
  ⟨rfl, rfl, rfl⟩

/-- Claim C5 (counterexample): registering on a disconnected hub does *not*
return the absent-result sentinel and is *not* a no-op — `validate` only warns
(its early return on disconnect is commented out), so a key is issued and the
listener is appended. -/
theorem c5_disconnected_register_issues_key :
    c5hub.connected = false
    ∧ c5reg.2 = Except.ok (some "#0")
    ∧ c5reg.1.callbacks = [0] :=
  ⟨rfl, rfl, rfl⟩

/-- Claim C6 (failing-input evaluation): with the per-pattern ceiling for `"a"`
set to 1 and one listener already sharing that pattern, a further registration
on `"a"` still succeeds (key `"#1"`, registry grows to 2): the ceiling check
compares the ceiling against the undefined `this.events.count` instead of
`this.events["a"].count`, so `CapacityExceeded` is never raised. -/
theorem c6_event_ceiling_never_enforced :
    tblGet? c6hub.events "a" = some { maxListeners := some 1, count := 1 }
    ∧ c6reg.2 = Except.ok (some "#1")
    ∧ c6reg.1.callbacks = [0, 1] :=
  ⟨rfl, rfl, rfl⟩

/-- Claim C7 (counterexample): the listener set evaluated by an announce is not
fixed at the start of the call — listener `1` does not exist when the announce
begins, is registered by listener `0`'s callback during the pass, and is then
evaluated and invoked in that same pass. -/
theorem c7_mid_pass_registration_is_evaluated :
    tblGet? c7hub.store 1 = none
    ∧ (emit c7hub "a" (Payload.num 7)).2.1
        = [(0, EmitArg.plain (Payload.num 7)), (1, EmitArg.plain (Payload.num 7))] :=
  ⟨rfl, rfl⟩

/-- Claim C7 (amended): the announce pass iterates the *live* registry list: a
callback that registers a new listener during the pass appends it to the list
being iterated, and the new listener is evaluated (and here invoked) in the same
pass. -/
theorem c7_amended_live_list_iteration :
    c7hub.callbacks = [0]
    ∧ (emit c7hub "a" (Payload.num 7)).1.callbacks = [0, 1]
    ∧ ((emit c7hub "a" (Payload.num 7)).2.1.map Prod.fst) = [0, 1] :=
  ⟨rfl, rfl, rfl⟩

/-- Claim C8 (counterexample): after removing the known key `"#0"`, the
key-to-listener map still contains `"#0"` — `remove` deletes from the quota
table (`delete this.events[key]`), never from `this.keys`. -/
theorem c8_remove_keeps_key_map_entry :
    (remove c8hub "#0").callbacks = []
    ∧ (remove c8hub "#0").keys = [("#0", 0)]
    ∧ tblGet? (remove c8hub "#0").keys "#0" = some 0 :=
  ⟨rfl, rfl, rfl⟩

/-- Claim C10 (counterexample): `drop()` does not preserve per-pattern ceilings:
the ceiling of 5 previously set for pattern `"a"` is gone after `drop()` because
the whole quota table (which stores those ceilings) is cleared. -/
theorem c10_drop_loses_event_ceiling :
    tblGet? c10hub.events "a" = some { maxListeners := some 5, count := 1 }
    ∧ tblGet? (drop c10hub).events "a" = none :=
  ⟨rfl, rfl⟩

/-- Claim C10 (amended): `drop()` unconditionally clears the registry, the key
map and the quota table (losing per-pattern ceilings with it), and preserves the
rest of the hub — in particular the global `maxListeners` ceiling and the
connected flag. -/
theorem c10_amended_drop_clears_tables_keeps_global (st : Hub) :
    (drop st).callbacks = [] ∧ (drop st).keys = [] ∧ (drop st).events = []
    ∧ (drop st).maxListeners = st.maxListeners
    ∧ (drop st).connected = st.connected
    ∧ (drop st).store = st.store :=
  ⟨rfl, rfl, rfl, rfl, rfl, rfl⟩

/-- Claim C8 (amended): `remove(key)` is a no-op on a falsy or unknown key;
on a known key it filters the listener out of the registry (by the `cb.key`
field) and deletes the quota-table entry whose key *equals the listener key*
(normally absent, a no-op), while the key-to-listener map keeps the key — which
is what later lets `reconnect` find it. -/
theorem c8_amended_remove_characterization (st : Hub) (k : String) :
    ((k = "" ∨ tblGet? st.keys k = none) → remove st k = st)
    ∧ (∀ ref, k ≠ "" → tblGet? st.keys k = some ref →
        (remove st k).keys = st.keys
        ∧ (remove st k).events = tblDel st.events k
        ∧ (remove st k).callbacks = st.callbacks.filter (keepAfterRemove st.store k)
        ∧ (remove st k).store = st.store
        ∧ tblGet? (remove st k).keys k = some ref) := by
  constructor
  · rintro (hk | hk)
    · simp [remove, hk]
    · by_cases hk0 : k = ""
      · simp [remove, hk0]
      · simp [remove, hk0, hk]
  · intro ref hk0 hk
    simp [remove, hk0, hk]

/-- Witness for C8 (amended): unknown-key no-op on a fresh hub, and the key
`"#0"` surviving its own removal on the one-listener hub. -/
theorem c8_amended_remove_characterization_witness :
    remove freshHub "zzz" = freshHub
    ∧ tblGet? (remove c8hub "#0").keys "#0" = some 0 :=
  ⟨(c8_amended_remove_characterization freshHub "zzz").1 (Or.inr rfl),
   ((c8_amended_remove_characterization c8hub "#0").2 0 (by decide) rfl).2.2.2.2⟩

/-- `validate` with no global ceiling set: it only (possibly) files the
disconnected warning and returns `true`. -/
theorem validate_no_ceiling (st : Hub) (ev : JsEvents) (hmax : st.maxListeners = none) :
    validate st ev =
      (if !st.connected then addWarn st Warn.disconnectedInstance else st, Except.ok true) := by
  by_cases hc : st.connected <;>
    simp [validate, hc, hmax, addWarn, validateEvents_eq]

/-- When `validate` succeeds, `on'` issues the next key and appends the listener
(whatever warnings `validate` may have filed on the way). -/
theorem on'_of_validate_ok (st st' : Hub) (ev : JsEvents) (eff : CbEff)
    (hv : validate st ev = (st', Except.ok true)) :
    (on' st ev eff).2 = Except.ok (some (keyOf st'.nextId))
    ∧ (on' st ev eff).1.callbacks = st'.callbacks ++ [st'.nextId]
    ∧ (on' st ev eff).1.warns = st'.warns := by
  refine ⟨?_, ?_, ?_⟩ <;>
    · simp only [on', hv, bumpQuota]
      split
      · simp_all
      · first
        | rfl
        | (split <;> rfl)

/-- `onOrderOf`, under a successful `validate`. -/
theorem onOrderOf_of_validate_ok (st st' : Hub) (ev : JsEvents) (eff : CbEff)
    (hv : validate st ev = (st', Except.ok true)) :
    (onOrderOf st ev eff).2 = Except.ok (some (keyOf st'.nextId))
    ∧ (onOrderOf st ev eff).1.callbacks = st'.callbacks ++ [st'.nextId]
    ∧ (onOrderOf st ev eff).1.warns = st'.warns := by
  refine ⟨?_, ?_, ?_⟩ <;>
    · simp only [onOrderOf, hv, bumpQuota]
      split
      · simp_all
      · first
        | rfl
        | (split <;> rfl)

/-- `once`, under a successful `validate`. -/
theorem once_of_validate_ok (st st' : Hub) (ev : JsEvents) (eff : CbEff)
    (hv : validate st ev = (st', Except.ok true)) :
    (once st ev eff).2 = Except.ok (some (keyOf st'.nextId))
    ∧ (once st ev eff).1.callbacks = st'.callbacks ++ [st'.nextId]
    ∧ (once st ev eff).1.warns = st'.warns := by
  refine ⟨?_, ?_, ?_⟩ <;>
    · simp only [once, hv, bumpQuota]
      split
      · simp_all
      · first
        | rfl
        | (split <;> rfl)

/-- `onceOrderOf`, under a successful `validate`. -/
theorem onceOrderOf_of_validate_ok (st st' : Hub) (ev : JsEvents) (eff : CbEff)
    (hv : validate st ev = (st', Except.ok true)) :
    (onceOrderOf st ev eff).2 = Except.ok (some (keyOf st'.nextId))
    ∧ (onceOrderOf st ev eff).1.callbacks = st'.callbacks ++ [st'.nextId]
    ∧ (onceOrderOf st ev eff).1.warns = st'.warns := by
  refine ⟨?_, ?_, ?_⟩ <;>
    · simp only [onceOrderOf, hv, bumpQuota]
      split
      · simp_all
      · first
        | rfl
        | (split <;> rfl)

/-- Each register operation propagates a `validate` exception. -/
theorem on'_of_validate_err (st st' : Hub) (ev : JsEvents) (eff : CbEff) (err : HubErr)
    (hv : validate st ev = (st', Except.error err)) :
    (on' st ev eff).2 = Except.error err := by
  simp [on', hv]

theorem onOrderOf_of_validate_err (st st' : Hub) (ev : JsEvents) (eff : CbEff) (err : HubErr)
    (hv : validate st ev = (st', Except.error err)) :
    (onOrderOf st ev eff).2 = Except.error err := by
  simp [onOrderOf, hv]

theorem once_of_validate_err (st st' : Hub) (ev : JsEvents) (eff : CbEff) (err : HubErr)
    (hv : validate st ev = (st', Except.error err)) :
    (once st ev eff).2 = Except.error err := by
  simp [once, hv]

theorem onceOrderOf_of_validate_err (st st' : Hub) (ev : JsEvents) (eff : CbEff) (err : HubErr)
    (hv : validate st ev = (st', Except.error err)) :
    (onceOrderOf st ev eff).2 = Except.error err := by
  simp [onceOrderOf, hv]

/-- Claim C5 (amended): every one of the four register operations, called on a
disconnected hub (here with no global ceiling in the way), files the advisory
disconnected diagnostic but still creates the listener and returns its key — it
is not a no-op and does not return the absent-result sentinel. -/
theorem c5_amended_disconnected_register_registers (st : Hub) (ev : JsEvents) (eff : CbEff)
    (hconn : st.connected = false) (hmax : st.maxListeners = none) :
    ((on' st ev eff).2 = Except.ok (some (keyOf st.nextId))
      ∧ (on' st ev eff).1.callbacks = st.callbacks ++ [st.nextId]
      ∧ (on' st ev eff).1.warns = st.warns ++ [Warn.disconnectedInstance])
    ∧ ((onOrderOf st ev eff).2 = Except.ok (some (keyOf st.nextId))
      ∧ (onOrderOf st ev eff).1.callbacks = st.callbacks ++ [st.nextId]
      ∧ (onOrderOf st ev eff).1.warns = st.warns ++ [Warn.disconnectedInstance])
    ∧ ((once st ev eff).2 = Except.ok (some (keyOf st.nextId))
      ∧ (once st ev eff).1.callbacks = st.callbacks ++ [st.nextId]
      ∧ (once st ev eff).1.warns = st.warns ++ [Warn.disconnectedInstance])
    ∧ ((onceOrderOf st ev eff).2 = Except.ok (some (keyOf st.nextId))
      ∧ (onceOrderOf st ev eff).1.callbacks = st.callbacks ++ [st.nextId]
      ∧ (onceOrderOf st ev eff).1.warns = st.warns ++ [Warn.disconnectedInstance]) := by
  have hv := validate_no_ceiling st ev hmax
  rw [hconn] at hv
  simp only [Bool.not_false, if_pos] at hv
  refine ⟨?_, ?_, ?_, ?_⟩
  · have h := on'_of_validate_ok st (addWarn st Warn.disconnectedInstance) ev eff hv
    simpa [addWarn] using h
  · have h := onOrderOf_of_validate_ok st (addWarn st Warn.disconnectedInstance) ev eff hv
    simpa [addWarn] using h
  · have h := once_of_validate_ok st (addWarn st Warn.disconnectedInstance) ev eff hv
    simpa [addWarn] using h
  · have h := onceOrderOf_of_validate_ok st (addWarn st Warn.disconnectedInstance) ev eff hv
    simpa [addWarn] using h

/-- Witness for C5 (amended): the concrete disconnected fresh hub. -/
theorem c5_amended_witness :
    (on' c5hub (JsEvents.scalar "b") CbEff.pure).2 = Except.ok (some (keyOf c5hub.nextId))
    ∧ (on' c5hub (JsEvents.scalar "b") CbEff.pure).1.callbacks = c5hub.callbacks ++ [c5hub.nextId]
    ∧ (on' c5hub (JsEvents.scalar "b") CbEff.pure).1.warns
        = c5hub.warns ++ [Warn.disconnectedInstance] :=
  (c5_amended_disconnected_register_registers c5hub (JsEvents.scalar "b") CbEff.pure rfl rfl).1

/-- At or above the global ceiling, `validate` throws `CapacityExceeded`. -/
theorem validate_err_at_ceiling (st : Hub) (ev : JsEvents) (m : Int)
    (hm : st.maxListeners = some m) (hm0 : m ≠ 0)
    (hge : m ≤ (st.callbacks.length : Int)) :
    validate st ev =
      (if !st.connected then addWarn st Warn.disconnectedInstance else st,
       Except.error HubErr.capacity) := by
  by_cases hc : st.connected <;>
    simp [validate, hc, hm, hm0, addWarn, ge_iff_le, hge]

/-- Below the global ceiling, `validate` succeeds. -/
theorem validate_ok_below (st : Hub) (ev : JsEvents) (m : Int)
    (hm : st.maxListeners = some m) (hm0 : m ≠ 0)
    (hge : ¬ m ≤ (st.callbacks.length : Int)) :
    validate st ev = ((validate st ev).1, Except.ok true) := by
  have h2 : (validate st ev).2 = Except.ok true := by
    by_cases hc : st.connected <;>
    by_cases hw1 : (st.callbacks.length : Int) > 5 <;>
    by_cases hw2 : m - (st.callbacks.length : Int) < 5 <;>
      simp [validate, hc, hm, hm0, ge_iff_le, hge, hw1, hw2, validateEvents_eq, addWarn]
  rw [← h2]

/-- Claim C9: with `setMaxListeners(3)` on a fresh hub, three registrations
succeed with keys and the fourth raises `CapacityExceeded`; in general, with a
global ceiling `m` set (necessarily non-zero), each of the four register
operations raises `CapacityExceeded` exactly when the live listener count has
reached the ceiling. -/
theorem c9_global_ceiling :
    (c9r1.2 = Except.ok (some "#0") ∧ c9r2.2 = Except.ok (some "#1")
     ∧ c9r3.2 = Except.ok (some "#2") ∧ c9r4.2 = Except.error HubErr.capacity)
    ∧ (∀ (st : Hub) (ev : JsEvents) (eff : CbEff) (m : Int),
        st.maxListeners = some m → m ≠ 0 →
        (((on' st ev eff).2 = Except.error HubErr.capacity ↔ m ≤ (st.callbacks.length : Int))
        ∧ ((onOrderOf st ev eff).2 = Except.error HubErr.capacity
            ↔ m ≤ (st.callbacks.length : Int))
        ∧ ((once st ev eff).2 = Except.error HubErr.capacity
            ↔ m ≤ (st.callbacks.length : Int))
        ∧ ((onceOrderOf st ev eff).2 = Except.error HubErr.capacity
            ↔ m ≤ (st.callbacks.length : Int)))) := by
  refine ⟨⟨rfl, rfl, rfl, rfl⟩, ?_⟩
  intro st ev eff m hm hm0
  by_cases hge : m ≤ (st.callbacks.length : Int)
  · have hv := validate_err_at_ceiling st ev m hm hm0 hge
    refine ⟨?_, ?_, ?_, ?_⟩
    · rw [on'_of_validate_err st _ ev eff HubErr.capacity hv]
      simp [hge]
    · rw [onOrderOf_of_validate_err st _ ev eff HubErr.capacity hv]
      simp [hge]
    · rw [once_of_validate_err st _ ev eff HubErr.capacity hv]
      simp [hge]
    · rw [onceOrderOf_of_validate_err st _ ev eff HubErr.capacity hv]
      simp [hge]
  · have hv := validate_ok_below st ev m hm hm0 hge
    refine ⟨?_, ?_, ?_, ?_⟩
    · have hok := (on'_of_validate_ok st ((validate st ev).1) ev eff hv).1
      simp [hok, hge]
    · have hok := (onOrderOf_of_validate_ok st ((validate st ev).1) ev eff hv).1
      simp [hok, hge]
    · have hok := (once_of_validate_ok st ((validate st ev).1) ev eff hv).1
      simp [hok, hge]
    · have hok := (onceOrderOf_of_validate_ok st ((validate st ev).1) ev eff hv).1
      simp [hok, hge]

/-- Witness for C9: on a hub whose ceiling is 2 and which has no listeners,
a register call does not raise `CapacityExceeded`. -/
theorem c9_global_ceiling_witness :
    ((on' (limitConnections freshHub 2).1 (JsEvents.scalar "a") CbEff.pure).2
        = Except.error HubErr.capacity ↔ (2 : Int) ≤ (0 : Int)) :=
  (c9_global_ceiling.2 (limitConnections freshHub 2).1 (JsEvents.scalar "a") CbEff.pure 2
    rfl (by decide)).1

/-! ### String-level toolkit for the sequence-matcher proofs -/

theorem string_eq_of_data {s t : String} (h : s.data = t.data) : s = t := by
  cases s
  cases t
  exact congrArg String.mk h

theorem space_data : (" " : String).data = [spc] := by decide

theorem sep_data (s e : String) : (s ++ " " ++ e).data = s.data ++ spc :: e.data := by
  rw [String.data_append, String.data_append, space_data]
  simp

theorem dropWhile_eq_self_of (l : List Char) (h : ∀ c ∈ l, c.isWhitespace = false) :
    l.dropWhile Char.isWhitespace = l := by
  cases l with
  | nil => rfl
  | cons a t => simp [List.dropWhile_cons, h a (by simp)]

theorem goodS_chars {s : String} (h : goodS s) : ∀ c ∈ s.data, c.isWhitespace = false := by
  intro c hc
  have h2 := h.2
  rw [List.all_eq_true] at h2
  simpa using h2 c hc

theorem jsTrim_good {s : String} (h : goodS s) : jsTrim s = s := by
  apply string_eq_of_data
  show ((s.data.dropWhile _).reverse.dropWhile _).reverse = s.data
  rw [dropWhile_eq_self_of _ (goodS_chars h),
      dropWhile_eq_self_of _ (fun c hc => goodS_chars h c (List.mem_reverse.mp hc)),
      List.reverse_reverse]

theorem headOk_of_good {s : String} (h : goodS s) : headOk s := by
  rcases s with ⟨l⟩
  cases l with
  | nil => exact absurd rfl h.1
  | cons a t => exact ⟨a, t, rfl, goodS_chars h a (by simp)⟩

theorem headOk_append (s t : String) (h : headOk s) : headOk (s ++ t) := by
  obtain ⟨hd, tl, hdata, hws⟩ := h
  exact ⟨hd, tl ++ t.data, by rw [String.data_append, hdata]; rfl, hws⟩

theorem dropWhile_reverse_keep (l m : List Char) (hm : m ≠ [])
    (hmall : ∀ c ∈ m, c.isWhitespace = false) :
    ((l ++ m).reverse.dropWhile Char.isWhitespace) = (l ++ m).reverse := by
  cases hM : m.reverse with
  | nil => exact absurd (by simpa using hM) hm
  | cons a t =>
    have ha : a ∈ m := by
      rw [← List.mem_reverse, hM]
      simp
    rw [List.reverse_append, hM]
    simp [List.dropWhile_cons, hmall a ha]

theorem jsTrim_sep (s e : String) (hs : headOk s) (he : goodS e) :
    jsTrim (s ++ " " ++ e) = s ++ " " ++ e := by
  apply string_eq_of_data
  obtain ⟨hd, tl, hdata, hws⟩ := hs
  have hd1 : (s ++ " " ++ e).data = hd :: (tl ++ spc :: e.data) := by
    rw [sep_data, hdata]
    rfl
  have hws' : ¬ (hd.isWhitespace = true) := by simp [hws]
  show (((s ++ " " ++ e).data.dropWhile Char.isWhitespace).reverse.dropWhile
      Char.isWhitespace).reverse = (s ++ " " ++ e).data
  rw [hd1, List.dropWhile_cons, if_neg hws']
  have hsplit : hd :: (tl ++ spc :: e.data) = (hd :: (tl ++ [spc])) ++ e.data := by simp
  rw [hsplit, dropWhile_reverse_keep _ _ he.1 (goodS_chars he), List.reverse_reverse]

theorem jsTrim_empty_sep (e : String) (he : goodS e) : jsTrim ("" ++ " " ++ e) = e := by
  apply string_eq_of_data
  have hd1 : ("" ++ " " ++ e).data = spc :: e.data := by
    rw [sep_data]
    rfl
  have hws : spc.isWhitespace = true := by decide
  show ((("" ++ " " ++ e).data.dropWhile Char.isWhitespace).reverse.dropWhile
      Char.isWhitespace).reverse = e.data
  rw [hd1, List.dropWhile_cons, if_pos hws]
  rw [dropWhile_eq_self_of _ (goodS_chars he),
      dropWhile_eq_self_of _ (fun c hc => goodS_chars he c (List.mem_reverse.mp hc)),
      List.reverse_reverse]

theorem hasInfix_iff {sub l : List Char} : hasInfix sub l = true ↔ sub <:+: l := by
  induction l with
  | nil => simp [hasInfix, List.infix_nil]
  | cons a t ih =>
    simp only [hasInfix, Bool.or_eq_true, List.isPrefixOf_iff_prefix, ih,
      List.infix_cons_iff]

theorem jsIncludes_iff {s sub : String} : jsIncludes s sub = true ↔ sub.data <:+: s.data :=
  hasInfix_iff

theorem jsIncludes_eq_false {s sub : String} :
    jsIncludes s sub = false ↔ ¬ sub.data <:+: s.data := by
  constructor
  · intro h hinf
    rw [← jsIncludes_iff] at hinf
    simp [h] at hinf
  · intro h
    cases hb : jsIncludes s sub
    · rfl
    · exact absurd (jsIncludes_iff.mp hb) h

theorem jsStartsWith_iff {s p : String} : jsStartsWith s p = true ↔ p.data <+: s.data :=
  List.isPrefixOf_iff_prefix

theorem nospc_sep_inj (u : List Char) :
    ∀ (v s t : List Char), (∀ c ∈ u, c ≠ spc) → (∀ c ∈ v, c ≠ spc) →
      u ++ spc :: s = v ++ spc :: t → u = v ∧ s = t := by
  induction u with
  | nil =>
    intro v s t _ hv h
    cases v with
    | nil => simpa using h
    | cons b v' =>
      simp only [List.nil_append, List.cons_append, List.cons.injEq] at h
      exact absurd h.1.symm (hv b (by simp))
  | cons a u' ih =>
    intro v s t hu hv h
    cases v with
    | nil =>
      simp only [List.cons_append, List.nil_append, List.cons.injEq] at h
      exact absurd h.1 (hu a (by simp))
    | cons b v' =>
      simp only [List.cons_append, List.cons.injEq] at h
      obtain ⟨h1, h2⟩ := h
      obtain ⟨hl, hr⟩ := ih v' s t (fun c hc => hu c (by simp [hc]))
        (fun c hc => hv c (by simp [hc])) h2
      exact ⟨by rw [h1, hl], hr⟩

theorem goodS_no_spc {s : String} (h : goodS s) : ∀ c ∈ s.data, c ≠ spc := by
  intro c hc he
  have hw := goodS_chars h c hc
  rw [he] at hw
  exact absurd hw (by decide)

/-! ### Characterizing one `emit` pass over a single-train-listener hub -/

theorem emitLoop_done (e : String) (p : Payload) (fuel i : Nat) (st : Hub) (acc : List Inv)
    (h : ¬ i < st.callbacks.length) :
    emitLoop e p (fuel + 1) i st acc = (st, acc, none) := by
  simp [emitLoop, h]

theorem emitLoop_step (e : String) (p : Payload) (fuel i : Nat) (st : Hub) (acc : List Inv)
    (st2 : Hub) (invs : List Inv)
    (h : i < st.callbacks.length)
    (hIter : emitIter e p st (st.callbacks.getD i 0) = (st2, invs, none)) :
    emitLoop e p (fuel + 1) i st acc = emitLoop e p fuel (i + 1) st2 (acc ++ invs) := by
  rw [emitLoop, if_pos h]
  dsimp only
  rw [hIter]

/-- Registering one persistent strict train on a fresh hub lands exactly in the
`mkTrainHub` state (note the absent `key` field). -/
theorem onOrderOf_fresh_list (l : List String) :
    onOrderOf freshHub (JsEvents.list l) CbEff.pure =
      (mkTrainHub (joinSp (l.map jsTrim)) (joinSp l) l.length Order.strict none "" [] 0,
       Except.ok (some "#0")) := by
  have hv := validate_no_ceiling freshHub (JsEvents.list l) rfl
  rw [show (if !freshHub.connected then addWarn freshHub Warn.disconnectedInstance
        else freshHub) = freshHub from rfl] at hv
  simp only [onOrderOf, hv]
  rfl

/-- Registering one persistent loose train on a fresh hub. -/
theorem on'_fresh_list (l : List String) :
    on' freshHub (JsEvents.list l) CbEff.pure =
      (mkTrainHub (joinSp (l.map jsTrim)) (joinSp l) l.length Order.loose (some "#0") "" [] 0,
       Except.ok (some "#0")) := by
  have hv := validate_no_ceiling freshHub (JsEvents.list l) rfl
  rw [show (if !freshHub.connected then addWarn freshHub Warn.disconnectedInstance
        else freshHub) = freshHub from rfl] at hv
  simp only [on', hv]
  rfl

theorem mkTrainCb_event (w : String) (cnt : Nat) (ord : Order) (keyF : Option String)
    (r : String) (s : List (String × Payload)) (n : Nat) :
    (mkTrainCb w cnt ord keyF r s n).event = w := rfl

theorem mkTrainCb_callable (w : String) (cnt : Nat) (ord : Order) (keyF : Option String)
    (r : String) (s : List (String × Payload)) (n : Nat) :
    (mkTrainCb w cnt ord keyF r s n).callable = true := rfl

theorem mkTrainCb_callType (w : String) (cnt : Nat) (ord : Order) (keyF : Option String)
    (r : String) (s : List (String × Payload)) (n : Nat) :
    (mkTrainCb w cnt ord keyF r s n).callType = CallType.on := rfl

theorem mkTrainCb_isTrain (w : String) (cnt : Nat) (ord : Order) (keyF : Option String)
    (r : String) (s : List (String × Payload)) (n : Nat) :
    (mkTrainCb w cnt ord keyF r s n).isTrainOfEvent = true := rfl

theorem mkTrainCb_cbEff (w : String) (cnt : Nat) (ord : Order) (keyF : Option String)
    (r : String) (s : List (String × Payload)) (n : Nat) :
    (mkTrainCb w cnt ord keyF r s n).cbEff = CbEff.pure := rfl

theorem mkTrainCb_sink (w : String) (cnt : Nat) (ord : Order) (keyF : Option String)
    (r : String) (s : List (String × Payload)) (n : Nat) :
    (mkTrainCb w cnt ord keyF r s n).sink = s := rfl

theorem mkTrainCb_callsCount (w : String) (cnt : Nat) (ord : Order) (keyF : Option String)
    (r : String) (s : List (String × Payload)) (n : Nat) :
    (mkTrainCb w cnt ord keyF r s n).callsCount = n := rfl

theorem mkTrainCb_order (w : String) (cnt : Nat) (ord : Order) (keyF : Option String)
    (r : String) (s : List (String × Payload)) (n : Nat) :
    (mkTrainCb w cnt ord keyF r s n).order = some ord := rfl

theorem mkTrainCb_registered (w : String) (cnt : Nat) (ord : Order) (keyF : Option String)
    (r : String) (s : List (String × Payload)) (n : Nat) :
    (mkTrainCb w cnt ord keyF r s n).registered = r := rfl

theorem mkTrainCb_update (w : String) (cnt : Nat) (ord : Order) (keyF : Option String)
    (r : String) (s : List (String × Payload)) (n : Nat) :
    { mkTrainCb w cnt ord keyF r s n with
        callsCount := (mkTrainCb w cnt ord keyF r s n).callsCount + 1, sink := [] }
      = mkTrainCb w cnt ord keyF r [] (n + 1) := rfl

theorem runCb_pure (st : Hub) : runCb st CbEff.pure = (st, none) := rfl

theorem putCb_train' (w wraw : String) (cnt : Nat) (ord : Order) (keyF : Option String)
    (r r' : String) (s s' : List (String × Payload)) (n n' : Nat) :
    putCb (mkTrainHub w wraw cnt ord keyF r s n) 0 (mkTrainCb w cnt ord keyF r' s' n')
      = mkTrainHub w wraw cnt ord keyF r' s' n' := rfl

theorem eventMatchOf_train (w : String) (cnt : Nat) (ord : Order) (keyF : Option String)
    (r : String) (s : List (String × Payload)) (n : Nat) (e : String) :
    eventMatchOf (mkTrainCb w cnt ord keyF r s n) e = (jsTrim (r ++ " " ++ e) == w) := rfl

theorem strictInvalidate_of_match (w : String) (cnt : Nat) (ord : Order) (keyF : Option String)
    (r : String) (s : List (String × Payload)) (n : Nat) (e : String)
    (hm : (jsTrim (r ++ " " ++ e) == w) = true) :
    strictInvalidate (mkTrainCb w cnt ord keyF r s n) e = mkTrainCb w cnt ord keyF r s n := by
  simp [strictInvalidate, eventMatchOf_train, hm]

theorem strictInvalidate_loose (w : String) (cnt : Nat) (keyF : Option String)
    (r : String) (s : List (String × Payload)) (n : Nat) (e : String) :
    strictInvalidate (mkTrainCb w cnt Order.loose keyF r s n) e
      = mkTrainCb w cnt Order.loose keyF r s n := by
  simp [strictInvalidate, mkTrainCb, isStrictOrd]

theorem strictInvalidate_strict_keep (w : String) (cnt : Nat) (keyF : Option String)
    (r : String) (s : List (String × Payload)) (n : Nat) (e : String)
    (hinc : jsIncludes w (jsTrim (r ++ " " ++ e)) = true) :
    strictInvalidate (mkTrainCb w cnt Order.strict keyF r s n) e
      = mkTrainCb w cnt Order.strict keyF r s n := by
  simp [strictInvalidate, eventMatchOf_train, mkTrainCb, isStrictOrd, hinc]

theorem strictInvalidate_strict_clear (w : String) (cnt : Nat) (keyF : Option String)
    (r : String) (s : List (String × Payload)) (n : Nat) (e : String)
    (hm : (jsTrim (r ++ " " ++ e) == w) = false)
    (hinc : jsIncludes w (jsTrim (r ++ " " ++ e)) = false) :
    strictInvalidate (mkTrainCb w cnt Order.strict keyF r s n) e
      = mkTrainCb w cnt Order.strict keyF "" [] n := by
  simp [strictInvalidate, eventMatchOf_train, mkTrainCb_isTrain, mkTrainCb_order,
    mkTrainCb_event, mkTrainCb_registered, isStrictOrd, hm, hinc]
  rfl

theorem accumulate_match_train (w : String) (cnt : Nat) (ord : Order) (keyF : Option String)
    (r : String) (s : List (String × Payload)) (n : Nat) (e : String) (p : Payload) :
    accumulate true (mkTrainCb w cnt ord keyF r s n) e p = mkTrainCb w cnt ord keyF "" [] n := by
  simp [accumulate, mkTrainCb]

theorem accumulate_nomatch_train (w : String) (cnt : Nat) (ord : Order) (keyF : Option String)
    (r : String) (s : List (String × Payload)) (n : Nat) (e : String) (p : Payload) :
    accumulate false (mkTrainCb w cnt ord keyF r s n) e p =
      mkTrainCb w cnt ord keyF
        (if r == "" then (if jsStartsWith w e then jsTrim e else r)
         else (if jsIncludes w (r ++ " " ++ e) then r ++ " " ++ jsTrim e else r))
        (if jsIncludes w e then tblSet s e p else s) n := by
  by_cases h1 : jsIncludes w e = true <;> by_cases h2 : (r == "") = true <;>
  by_cases h3 : jsStartsWith w e = true <;> by_cases h4 : jsIncludes w (r ++ " " ++ e) = true <;>
    simp [accumulate, mkTrainCb, h1, h2, h3, h4]

theorem emitIter_train_match (w wraw : String) (cnt : Nat) (ord : Order) (keyF : Option String)
    (r : String) (s : List (String × Payload)) (n : Nat) (e : String) (p : Payload)
    (hm : (jsTrim (r ++ " " ++ e) == w) = true) :
    emitIter e p (mkTrainHub w wraw cnt ord keyF r s n) 0 =
      (mkTrainHub w wraw cnt ord keyF "" [] (n + 1),
       [(0, EmitArg.obj (tblSet s e p))], none) := by
  have h0 : tblGet? (mkTrainHub w wraw cnt ord keyF r s n).store 0
      = some (mkTrainCb w cnt ord keyF r s n) := rfl
  have hEM : eventMatchOf (mkTrainCb w cnt ord keyF r s n) e = true := by
    rw [eventMatchOf_train]
    exact hm
  have hSI := strictInvalidate_of_match w cnt ord keyF r s n e hm
  simp only [emitIter, h0, hEM, hSI, mkTrainCb_callable, mkTrainCb_callType,
    mkTrainCb_isTrain, mkTrainCb_cbEff, mkTrainCb_sink, mkTrainCb_callsCount,
    mkTrainCb_update, runCb_pure, accumulate_match_train, putCb_train',
    Bool.and_self, if_true]
  rfl

theorem emitIter_train_nomatch (w wraw : String) (cnt : Nat) (ord : Order) (keyF : Option String)
    (r : String) (s : List (String × Payload)) (n : Nat) (e : String) (p : Payload)
    (hm : (jsTrim (r ++ " " ++ e) == w) = false) :
    emitIter e p (mkTrainHub w wraw cnt ord keyF r s n) 0 =
      (mkTrainHub w wraw cnt ord keyF (stepReg w ord r e) (stepSink w ord r s e p) n,
       [], none) := by
  have h0 : tblGet? (mkTrainHub w wraw cnt ord keyF r s n).store 0
      = some (mkTrainCb w cnt ord keyF r s n) := rfl
  have hEM : eventMatchOf (mkTrainCb w cnt ord keyF r s n) e = false := by
    rw [eventMatchOf_train]
    exact hm
  cases ord with
  | loose =>
    have hSI := strictInvalidate_loose w cnt keyF r s n e
    have hcl : stepCleared w Order.loose r e = false := by
      simp [stepCleared, isStrictOrd]
    simp only [emitIter, h0, hEM, hSI, Bool.false_and, Bool.false_eq_true, if_false,
      accumulate_nomatch_train, putCb_train']
    simp [stepReg, stepR1, stepSink, hcl]
  | strict =>
    by_cases hinc : jsIncludes w (jsTrim (r ++ " " ++ e)) = true
    · have hSI := strictInvalidate_strict_keep w cnt keyF r s n e hinc
      have hcl : stepCleared w Order.strict r e = false := by
        simp [stepCleared, isStrictOrd, hinc]
      simp only [emitIter, h0, hEM, hSI, Bool.false_and, Bool.false_eq_true, if_false,
        accumulate_nomatch_train, putCb_train']
      simp [stepReg, stepR1, stepSink, hcl]
    · have hinc' : jsIncludes w (jsTrim (r ++ " " ++ e)) = false := by
        cases hb : jsIncludes w (jsTrim (r ++ " " ++ e))
        · rfl
        · exact absurd hb hinc
      have hSI := strictInvalidate_strict_clear w cnt keyF r s n e hm hinc'
      have hcl : stepCleared w Order.strict r e = true := by
        simp [stepCleared, isStrictOrd, hinc']
      simp only [emitIter, h0, hEM, hSI, Bool.false_and, Bool.false_eq_true, if_false,
        accumulate_nomatch_train, putCb_train']
      simp [stepReg, stepR1, stepSink, hcl]

/-- One announce that *completes* the single strict/loose train: the callback is
invoked once with the accumulated sink extended by the final payload, and the
listener's progress resets with `callsCount` bumped. -/
theorem emit_train_match (w wraw : String) (cnt : Nat) (ord : Order) (keyF : Option String)
    (r : String) (s : List (String × Payload)) (n : Nat) (e : String) (p : Payload)
    (hm : (jsTrim (r ++ " " ++ e) == w) = true) :
    emit (mkTrainHub w wraw cnt ord keyF r s n) e p =
      (mkTrainHub w wraw cnt ord keyF "" [] (n + 1),
       [(0, EmitArg.obj (tblSet s e p))], none) := by
  have hIter := emitIter_train_match w wraw cnt ord keyF r s n e p hm
  have hlt : 0 < (mkTrainHub w wraw cnt ord keyF r s n).callbacks.length := by
    simp [mkTrainHub]
  have hstep := emitLoop_step e p 2 0 (mkTrainHub w wraw cnt ord keyF r s n) []
    (mkTrainHub w wraw cnt ord keyF "" [] (n + 1))
    [(0, EmitArg.obj (tblSet s e p))] hlt hIter
  have hnlt : ¬ 1 < (mkTrainHub w wraw cnt ord keyF "" [] (n + 1)).callbacks.length := by
    simp [mkTrainHub]
  have hdone := emitLoop_done e p 1 1 (mkTrainHub w wraw cnt ord keyF "" [] (n + 1))
    ([] ++ [(0, EmitArg.obj (tblSet s e p))]) hnlt
  calc emit (mkTrainHub w wraw cnt ord keyF r s n) e p
      = emitLoop e p 3 0 (mkTrainHub w wraw cnt ord keyF r s n) [] := rfl
    _ = emitLoop e p 2 1 (mkTrainHub w wraw cnt ord keyF "" [] (n + 1))
          ([] ++ [(0, EmitArg.obj (tblSet s e p))]) := hstep
    _ = (mkTrainHub w wraw cnt ord keyF "" [] (n + 1),
          [] ++ [(0, EmitArg.obj (tblSet s e p))], none) := hdone
    _ = (mkTrainHub w wraw cnt ord keyF "" [] (n + 1),
          [(0, EmitArg.obj (tblSet s e p))], none) := by simp

/-- One announce that does *not* complete the single train: no invocation; the
run and sink evolve by `stepReg` / `stepSink`. -/
theorem emit_train_nomatch (w wraw : String) (cnt : Nat) (ord : Order) (keyF : Option String)
    (r : String) (s : List (String × Payload)) (n : Nat) (e : String) (p : Payload)
    (hm : (jsTrim (r ++ " " ++ e) == w) = false) :
    emit (mkTrainHub w wraw cnt ord keyF r s n) e p =
      (mkTrainHub w wraw cnt ord keyF (stepReg w ord r e) (stepSink w ord r s e p) n,
       [], none) := by
  have hIter := emitIter_train_nomatch w wraw cnt ord keyF r s n e p hm
  have hlt : 0 < (mkTrainHub w wraw cnt ord keyF r s n).callbacks.length := by
    simp [mkTrainHub]
  have hstep := emitLoop_step e p 2 0 (mkTrainHub w wraw cnt ord keyF r s n) []
    (mkTrainHub w wraw cnt ord keyF (stepReg w ord r e) (stepSink w ord r s e p) n)
    [] hlt hIter
  have hnlt : ¬ 1 < (mkTrainHub w wraw cnt ord keyF (stepReg w ord r e)
      (stepSink w ord r s e p) n).callbacks.length := by
    simp [mkTrainHub]
  have hdone := emitLoop_done e p 1 1 (mkTrainHub w wraw cnt ord keyF (stepReg w ord r e)
    (stepSink w ord r s e p) n) ([] ++ []) hnlt
  calc emit (mkTrainHub w wraw cnt ord keyF r s n) e p
      = emitLoop e p 3 0 (mkTrainHub w wraw cnt ord keyF r s n) [] := rfl
    _ = emitLoop e p 2 1 (mkTrainHub w wraw cnt ord keyF (stepReg w ord r e)
          (stepSink w ord r s e p) n) ([] ++ []) := hstep
    _ = (mkTrainHub w wraw cnt ord keyF (stepReg w ord r e)
          (stepSink w ord r s e p) n, [] ++ [], none) := hdone
    _ = (mkTrainHub w wraw cnt ord keyF (stepReg w ord r e)
          (stepSink w ord r s e p) n, [], none) := by simp

theorem str_beq_false {s t : String} (h : s.data ≠ t.data) : (s == t) = false := by
  cases hb : s == t
  · rfl
  · exact absurd (congrArg String.data (eq_of_beq hb)) h

theorem bool_eq_false {b : Bool} (h : ¬ b = true) : b = false := by
  cases b
  · rfl
  · exact absurd rfl h

theorem lenOf (u v : String) :
    (u ++ " " ++ v).data.length = u.data.length + v.data.length + 1 := by
  rw [sep_data]
  simp only [List.length_append, List.length_cons]
  omega

/-- Claim C2: for every persistent STRICT listener on a pattern `[A,B,C]` of
distinct well-formed names (non-empty, whitespace-free), announcing `A, B, C`
consecutively invokes the callback exactly once, with a mapping carrying the
payloads announced for `A`, `B` and `C`; announcing `A, X, B, C`, where `X` is
not a pattern member, never invokes the callback. -/
theorem c2_strict_order_train (A B C X : String) (pa pb pc px : Payload)
    (hA : goodS A) (hB : goodS B) (hC : goodS C) (hX : goodS X)
    (hAB : A ≠ B) (hAC : A ≠ C) (hBC : B ≠ C)
    (hXA : X ≠ A) (hXB : X ≠ B) (hXC : X ≠ C) :
    (emitSeq (strictHub A B C) [(A, pa), (B, pb), (C, pc)]).2.1
        = [(0, EmitArg.obj [(A, pa), (B, pb), (C, pc)])]
    ∧ (emitSeq (strictHub A B C) [(A, pa), (X, px), (B, pb), (C, pc)]).2.1 = [] := by
  have hreg : strictHub A B C
      = mkTrainHub (joinSp [A, B, C]) (joinSp [A, B, C]) 3 Order.strict none "" [] 0 := by
    unfold strictHub
    rw [onOrderOf_fresh_list]
    simp [jsTrim_good hA, jsTrim_good hB, jsTrim_good hC]
  rw [hreg]
  set W := joinSp [A, B, C] with hWdef
  have hWdata : W.data = A.data ++ spc :: (B.data ++ spc :: C.data) := by
    rw [hWdef]
    show (A ++ " " ++ (B ++ " " ++ C)).data = _
    rw [sep_data, sep_data]
  have hlenW : W.data.length = A.data.length + (B.data.length + C.data.length + 2) := by
    rw [hWdata]
    simp only [List.length_append, List.length_cons]
    omega
  have nonW : ∀ (u : String), u.data.length < W.data.length → (u == W) = false := by
    intro u hlen
    apply str_beq_false
    intro h
    rw [h] at hlen
    exact Nat.lt_irrefl _ hlen
  -- step-A facts
  have htrA := jsTrim_empty_sep A hA
  have mA : (jsTrim ("" ++ " " ++ A) == W) = false := by
    rw [htrA]
    apply nonW
    rw [hlenW]
    omega
  have hincA : jsIncludes W A = true :=
    jsIncludes_iff.mpr (by rw [hWdata]; exact (List.prefix_append _ _).isInfix)
  have hswA : jsStartsWith W A = true :=
    jsStartsWith_iff.mpr (by rw [hWdata]; exact List.prefix_append _ _)
  have hregA : stepReg W Order.strict "" A = A := by
    simp [stepReg, stepR1, stepCleared, isStrictOrd, htrA, hincA, hswA, jsTrim_good hA]
  have hsinkA : stepSink W Order.strict "" [] A pa = [(A, pa)] := by
    simp [stepSink, stepCleared, isStrictOrd, htrA, hincA, tblSet]
  -- step-B facts
  have hheadA : headOk A := headOk_of_good hA
  have htrAB : jsTrim (A ++ " " ++ B) = A ++ " " ++ B := jsTrim_sep A B hheadA hB
  have mB_A : (jsTrim (A ++ " " ++ B) == W) = false := by
    rw [htrAB]
    apply nonW
    rw [lenOf, hlenW]
    omega
  have hincAB : jsIncludes W (A ++ " " ++ B) = true :=
    jsIncludes_iff.mpr (by
      rw [sep_data, hWdata]
      exact ⟨[], spc :: C.data, by simp⟩)
  have hAne : (A == "") = false := str_beq_false (by simpa using hA.1)
  have hincB : jsIncludes W B = true :=
    jsIncludes_iff.mpr (by
      rw [hWdata]
      exact ⟨A.data ++ [spc], spc :: C.data, by simp⟩)
  have hregB : stepReg W Order.strict A B = A ++ " " ++ B := by
    simp [stepReg, stepR1, stepCleared, isStrictOrd, htrAB, hincAB, hAne, jsTrim_good hB]
  have hABf : (A == B) = false := str_beq_false (fun h => hAB (string_eq_of_data h))
  have hsinkB : stepSink W Order.strict A [(A, pa)] B pb = [(A, pa), (B, pb)] := by
    simp [stepSink, stepCleared, isStrictOrd, htrAB, hincAB, hincB, tblSet, hABf]
  -- step-C facts (positive chain)
  have hheadAB : headOk (A ++ " " ++ B) := headOk_append _ _ (headOk_append A " " hheadA)
  have htrABC : jsTrim ((A ++ " " ++ B) ++ " " ++ C) = (A ++ " " ++ B) ++ " " ++ C :=
    jsTrim_sep _ C hheadAB hC
  have hABCW : (A ++ " " ++ B) ++ " " ++ C = W := by
    apply string_eq_of_data
    rw [sep_data, sep_data, hWdata]
    simp
  have mC_AB : (jsTrim ((A ++ " " ++ B) ++ " " ++ C) == W) = true := by
    rw [htrABC, hABCW]
    simp
  have hACf : (A == C) = false := str_beq_false (fun h => hAC (string_eq_of_data h))
  have hBCf : (B == C) = false := str_beq_false (fun h => hBC (string_eq_of_data h))
  have hsinkC : tblSet [(A, pa), (B, pb)] C pc = [(A, pa), (B, pb), (C, pc)] := by
    simp [tblSet, hACf, hBCf]
  -- sequencing helpers
  have seqstep : ∀ (r' : String) (s' : List (String × Payload)) (e' : String) (p' : Payload)
      (rest : List (String × Payload)), (jsTrim (r' ++ " " ++ e') == W) = false →
      (emitSeq (mkTrainHub W W 3 Order.strict none r' s' 0) ((e', p') :: rest)).2.1
        = (emitSeq (mkTrainHub W W 3 Order.strict none (stepReg W Order.strict r' e')
            (stepSink W Order.strict r' s' e' p') 0) rest).2.1 := by
    intro r' s' e' p' rest hm'
    rcases hE : emitSeq (mkTrainHub W W 3 Order.strict none (stepReg W Order.strict r' e')
        (stepSink W Order.strict r' s' e' p') 0) rest with ⟨st3, invs2, err2⟩
    simp [emitSeq, emit_train_nomatch W W 3 Order.strict none r' s' 0 e' p' hm', hE]
  have seqfire : ∀ (r' : String) (s' : List (String × Payload)) (e' : String) (p' : Payload)
      (rest : List (String × Payload)), (jsTrim (r' ++ " " ++ e') == W) = true →
      (emitSeq (mkTrainHub W W 3 Order.strict none r' s' 0) ((e', p') :: rest)).2.1
        = (0, EmitArg.obj (tblSet s' e' p')) ::
          (emitSeq (mkTrainHub W W 3 Order.strict none "" [] 1) rest).2.1 := by
    intro r' s' e' p' rest hm'
    rcases hE : emitSeq (mkTrainHub W W 3 Order.strict none "" [] 1) rest with ⟨st3, invs2, err2⟩
    simp [emitSeq, emit_train_match W W 3 Order.strict none r' s' 0 e' p' hm', hE]
  constructor
  · rw [seqstep "" [] A pa [(B, pb), (C, pc)] mA, hregA, hsinkA,
        seqstep A [(A, pa)] B pb [(C, pc)] mB_A, hregB, hsinkB,
        seqfire (A ++ " " ++ B) [(A, pa), (B, pb)] C pc [] mC_AB, hsinkC]
    rfl
  · -- negative chain: A, X, B, C never fires
    have htrAX : jsTrim (A ++ " " ++ X) = A ++ " " ++ X := jsTrim_sep A X hheadA hX
    have mX_A : (jsTrim (A ++ " " ++ X) == W) = false := by
      rw [htrAX]
      apply str_beq_false
      intro h
      rw [sep_data, hWdata] at h
      have h2 := (nospc_sep_inj _ _ _ _ (goodS_no_spc hA) (goodS_no_spc hA) h).2
      have hmem : spc ∈ B.data ++ spc :: C.data := by simp
      rw [← h2] at hmem
      exact goodS_no_spc hX spc hmem rfl
    have mB_E : (jsTrim ("" ++ " " ++ B) == W) = false := by
      rw [jsTrim_empty_sep B hB]
      apply nonW
      rw [hlenW]
      omega
    have mB_X : (jsTrim (X ++ " " ++ B) == W) = false := by
      rw [jsTrim_sep X B (headOk_of_good hX) hB]
      apply str_beq_false
      intro h
      rw [sep_data, hWdata] at h
      exact hXA (string_eq_of_data
        (nospc_sep_inj _ _ _ _ (goodS_no_spc hX) (goodS_no_spc hA) h).1)
    have mB_AX : (jsTrim ((A ++ " " ++ X) ++ " " ++ B) == W) = false := by
      rw [jsTrim_sep _ B (headOk_append _ _ (headOk_append A " " hheadA)) hB]
      apply str_beq_false
      intro h
      rw [sep_data, sep_data, hWdata] at h
      simp only [List.append_assoc, List.cons_append] at h
      have h2 := (nospc_sep_inj _ _ _ _ (goodS_no_spc hA) (goodS_no_spc hA) h).2
      exact hXB (string_eq_of_data
        (nospc_sep_inj _ _ _ _ (goodS_no_spc hX) (goodS_no_spc hB) h2).1)
    have mC_E : (jsTrim ("" ++ " " ++ C) == W) = false := by
      rw [jsTrim_empty_sep C hC]
      apply nonW
      rw [hlenW]
      omega
    have mC_B : (jsTrim (B ++ " " ++ C) == W) = false := by
      rw [jsTrim_sep B C (headOk_of_good hB) hC]
      apply nonW
      rw [lenOf, hlenW]
      omega
    have mC_XB : (jsTrim ((X ++ " " ++ B) ++ " " ++ C) == W) = false := by
      rw [jsTrim_sep _ C (headOk_append _ _ (headOk_append X " " (headOk_of_good hX))) hC]
      apply str_beq_false
      intro h
      rw [sep_data, sep_data, hWdata] at h
      simp only [List.append_assoc, List.cons_append] at h
      exact hXA (string_eq_of_data
        (nospc_sep_inj _ _ _ _ (goodS_no_spc hX) (goodS_no_spc hA) h).1)
    have mC_AXB : (jsTrim (((A ++ " " ++ X) ++ " " ++ B) ++ " " ++ C) == W) = false := by
      rw [jsTrim_sep _ C
        (headOk_append _ _ (headOk_append _ _ (headOk_append _ _
          (headOk_append A " " hheadA)))) hC]
      apply str_beq_false
      intro h
      have hl := congrArg List.length h
      rw [lenOf, lenOf, lenOf, hlenW] at hl
      omega
    have hXne : (X == "") = false := str_beq_false (by simpa using hX.1)
    have hAXne : ((A ++ " " ++ X) == "") = false := str_beq_false (by
      rw [sep_data]
      simp)
    have htrAXB : jsTrim ((A ++ " " ++ X) ++ " " ++ B) = (A ++ " " ++ X) ++ " " ++ B :=
      jsTrim_sep _ B (headOk_append _ _ (headOk_append A " " hheadA)) hB
    have htrXB : jsTrim (X ++ " " ++ B) = X ++ " " ++ B :=
      jsTrim_sep X B (headOk_of_good hX) hB
    -- the four run-ending branches, then the C step
    rw [seqstep "" [] A pa [(X, px), (B, pb), (C, pc)] mA, hregA, hsinkA]
    by_cases hq1 : jsIncludes W (A ++ " " ++ X) = true
    · have hr1 : stepReg W Order.strict A X = A ++ " " ++ X := by
        simp [stepReg, stepR1, stepCleared, isStrictOrd, htrAX, hq1, hAne, jsTrim_good hX]
      rw [seqstep A _ X px [(B, pb), (C, pc)] mX_A, hr1]
      by_cases hq5 : jsIncludes W ((A ++ " " ++ X) ++ " " ++ B) = true
      · have hr2 : stepReg W Order.strict (A ++ " " ++ X) B = (A ++ " " ++ X) ++ " " ++ B := by
          simp [stepReg, stepR1, stepCleared, isStrictOrd, htrAXB, hq5, hAXne, jsTrim_good hB]
        rw [seqstep (A ++ " " ++ X) _ B pb [(C, pc)] mB_AX, hr2]
        rw [seqstep ((A ++ " " ++ X) ++ " " ++ B) _ C pc [] mC_AXB]
        rfl
      · have hq5' := bool_eq_false hq5
        by_cases hq3 : jsStartsWith W B = true
        · have hr2 : stepReg W Order.strict (A ++ " " ++ X) B = B := by
            simp [stepReg, stepR1, stepCleared, isStrictOrd, htrAXB, hq5', hq3,
              jsTrim_good hB]
          rw [seqstep (A ++ " " ++ X) _ B pb [(C, pc)] mB_AX, hr2]
          rw [seqstep B _ C pc [] mC_B]
          rfl
        · have hr2 : stepReg W Order.strict (A ++ " " ++ X) B = "" := by
            simp [stepReg, stepR1, stepCleared, isStrictOrd, htrAXB, hq5',
              bool_eq_false hq3]
          rw [seqstep (A ++ " " ++ X) _ B pb [(C, pc)] mB_AX, hr2]
          rw [seqstep "" _ C pc [] mC_E]
          rfl
    · have hq1' := bool_eq_false hq1
      by_cases hq2 : jsStartsWith W X = true
      · have hr1 : stepReg W Order.strict A X = X := by
          simp [stepReg, stepR1, stepCleared, isStrictOrd, htrAX, hq1', hq2, jsTrim_good hX]
        rw [seqstep A _ X px [(B, pb), (C, pc)] mX_A, hr1]
        by_cases hq4 : jsIncludes W (X ++ " " ++ B) = true
        · have hr2 : stepReg W Order.strict X B = X ++ " " ++ B := by
            simp [stepReg, stepR1, stepCleared, isStrictOrd, htrXB, hq4, hXne,
              jsTrim_good hB]
          rw [seqstep X _ B pb [(C, pc)] mB_X, hr2]
          rw [seqstep (X ++ " " ++ B) _ C pc [] mC_XB]
          rfl
        · have hq4' := bool_eq_false hq4
          by_cases hq3 : jsStartsWith W B = true
          · have hr2 : stepReg W Order.strict X B = B := by
              simp [stepReg, stepR1, stepCleared, isStrictOrd, htrXB, hq4', hq3,
                jsTrim_good hB]
            rw [seqstep X _ B pb [(C, pc)] mB_X, hr2]
            rw [seqstep B _ C pc [] mC_B]
            rfl
          · have hr2 : stepReg W Order.strict X B = "" := by
              simp [stepReg, stepR1, stepCleared, isStrictOrd, htrXB, hq4',
                bool_eq_false hq3]
            rw [seqstep X _ B pb [(C, pc)] mB_X, hr2]
            rw [seqstep "" _ C pc [] mC_E]
            rfl
      · have hr1 : stepReg W Order.strict A X = "" := by
          simp [stepReg, stepR1, stepCleared, isStrictOrd, htrAX, hq1',
            bool_eq_false hq2]
        rw [seqstep A _ X px [(B, pb), (C, pc)] mX_A, hr1]
        by_cases hq3 : jsStartsWith W B = true
        · have hr2 : stepReg W Order.strict "" B = B := by
            simp [stepReg, stepR1, stepCleared, isStrictOrd, jsTrim_empty_sep B hB,
              hincB, hq3, jsTrim_good hB]
          rw [seqstep "" _ B pb [(C, pc)] mB_E, hr2]
          rw [seqstep B _ C pc [] mC_B]
          rfl
        · have hr2 : stepReg W Order.strict "" B = "" := by
            simp [stepReg, stepR1, stepCleared, isStrictOrd, jsTrim_empty_sep B hB,
              hincB, bool_eq_false hq3]
          rw [seqstep "" _ B pb [(C, pc)] mB_E, hr2]
          rw [seqstep "" _ C pc [] mC_E]
          rfl

/-- Witness for C2 at the spec's scenario names. -/
theorem c2_strict_order_train_witness :
    (emitSeq (strictHub "login" "fetch" "render")
        [("login", Payload.num 1), ("fetch", Payload.num 2), ("render", Payload.num 3)]).2.1
      = [(0, EmitArg.obj [("login", Payload.num 1), ("fetch", Payload.num 2),
          ("render", Payload.num 3)])]
    ∧ (emitSeq (strictHub "login" "fetch" "render")
        [("login", Payload.num 1), ("misc", Payload.num 9), ("fetch", Payload.num 2),
         ("render", Payload.num 3)]).2.1 = [] :=
  c2_strict_order_train "login" "fetch" "render" "misc"
    (Payload.num 1) (Payload.num 2) (Payload.num 3) (Payload.num 9)
    (by decide) (by decide) (by decide) (by decide)
    (by decide) (by decide) (by decide) (by decide) (by decide) (by decide)

/-- Claim C3 (counterexample): a LOOSE multi-name listener with an in-progress
partial match (here `registered = "a"`, sink holding `a`'s payload) is *not*
invalidated by announcing the non-member `"x"` — prefix and payload mapping
survive unchanged, contradicting the claim for LOOSE listeners. -/
theorem c3_loose_not_reset_on_foreign :
    (tblGet? (emitSeq c3hub [("a", Payload.num 1), ("x", Payload.num 9)]).1.store 0).map
        (fun c => (c.registered, c.sink))
      = some ("a", [("a", Payload.num 1)]) :=
  rfl

/-- Claim C3 (amended): only STRICT listeners reset on a non-conforming
announce: when the extended (trimmed) run is not a substring of the pattern, a
STRICT train's matched prefix and payload mapping are cleared (the cleared run
may immediately restart at `e` when the pattern starts with `e`, and the sink
re-collects `e` when it is a substring of the pattern).  A LOOSE listener is
never cleared: for a non-matching event that is not a substring of the pattern
and does not extend the run, its prefix and payload mapping are retained
unchanged. -/
theorem c3_amended_reset_policy :
    (∀ (w wraw : String) (cnt : Nat) (keyF : Option String) (r : String)
        (s : List (String × Payload)) (n : Nat) (e : String) (p : Payload),
      (jsTrim (r ++ " " ++ e) == w) = false →
      jsIncludes w (jsTrim (r ++ " " ++ e)) = false →
      emit (mkTrainHub w wraw cnt Order.strict keyF r s n) e p
        = (mkTrainHub w wraw cnt Order.strict keyF
            (if jsStartsWith w e then jsTrim e else "")
            (if jsIncludes w e then [(e, p)] else []) n, [], none))
    ∧ (∀ (w wraw : String) (cnt : Nat) (keyF : Option String) (r : String)
        (s : List (String × Payload)) (n : Nat) (e : String) (p : Payload),
      (jsTrim (r ++ " " ++ e) == w) = false →
      jsIncludes w e = false →
      (r == "") = false →
      jsIncludes w (r ++ " " ++ e) = false →
      emit (mkTrainHub w wraw cnt Order.loose keyF r s n) e p
        = (mkTrainHub w wraw cnt Order.loose keyF r s n, [], none)) := by
  constructor
  · intro w wraw cnt keyF r s n e p hm hni
    rw [emit_train_nomatch w wraw cnt Order.strict keyF r s n e p hm]
    have hcl : stepCleared w Order.strict r e = true := by
      simp [stepCleared, isStrictOrd, hni]
    have hr2 : stepReg w Order.strict r e = (if jsStartsWith w e then jsTrim e else "") := by
      simp [stepReg, stepR1, hcl]
    have hs2 : stepSink w Order.strict r s e p
        = (if jsIncludes w e then [(e, p)] else []) := by
      simp [stepSink, hcl, tblSet]
    rw [hr2, hs2]
  · intro w wraw cnt keyF r s n e p hm hse hre hri
    rw [emit_train_nomatch w wraw cnt Order.loose keyF r s n e p hm]
    have hcl : stepCleared w Order.loose r e = false := by
      simp [stepCleared, isStrictOrd]
    have hr2 : stepReg w Order.loose r e = r := by
      simp [stepReg, stepR1, hcl, hre, hri]
    have hs2 : stepSink w Order.loose r s e p = s := by
      simp [stepSink, hcl, hse]
    rw [hr2, hs2]

/-- Witness for C3 (amended): a strict train on `"a b"` with run `"a"` is
cleared by the foreign `"z"`; a loose train in the same state keeps its run and
sink. -/
theorem c3_amended_reset_policy_witness :
    (emit (mkTrainHub "a b" "a b" 2 Order.strict (some "#0") "a" [("a", Payload.num 1)] 0)
        "z" (Payload.num 9)
      = (mkTrainHub "a b" "a b" 2 Order.strict (some "#0")
          (if jsStartsWith "a b" "z" then jsTrim "z" else "")
          (if jsIncludes "a b" "z" then [("z", Payload.num 9)] else []) 0, [], none))
    ∧ (emit (mkTrainHub "a b" "a b" 2 Order.loose (some "#0") "a" [("a", Payload.num 1)] 0)
        "z" (Payload.num 9)
      = (mkTrainHub "a b" "a b" 2 Order.loose (some "#0") "a" [("a", Payload.num 1)] 0,
         [], none)) :=
  ⟨c3_amended_reset_policy.1 "a b" "a b" 2 (some "#0") "a" [("a", Payload.num 1)] 0
      "z" (Payload.num 9) (by decide) (by decide),
   c3_amended_reset_policy.2 "a b" "a b" 2 (some "#0") "a" [("a", Payload.num 1)] 0
      "z" (Payload.num 9) (by decide) (by decide) (by decide) (by decide)⟩

end LS
